import Mathlib

/-
Verification of the rules engine in src/src/app/pages/game/game.page.ts:
a three-piece placement-and-movement game (Three Men's Morris variant) on
a 3x3 grid.  The TypeScript class GamePage is embedded shallowly: its
mutable fields become the fields of the structure GameState, and each
method becomes a function GameState -> GameState.  The source keeps the
active player as a reference to one of two fixed Player records whose
symbol field is immutable; following that structure, the state holds the
two counters (xCount, oCount) and a tag for which record is active.
-/

set_option maxHeartbeats 1000000

/-- Value of a single board cell, TS type CellValue = '' | 'X' | 'O'.
E stands for the empty string. -/
inductive CellValue
  | E
  | X
  | O
deriving DecidableEq, Repr

/-- Symbol of a Player record, TS type 'X' | 'O' (immutable once created). -/
inductive PlayerSym
  | X
  | O
deriving DecidableEq, Repr

/-- The 3x3 board: field cRC is this.board[R][C].value in the source. -/
structure Board where
  c00 : CellValue
  c01 : CellValue
  c02 : CellValue
  c10 : CellValue
  c11 : CellValue
  c12 : CellValue
  c20 : CellValue
  c21 : CellValue
  c22 : CellValue
deriving DecidableEq, Repr

/-- Read this.board[r][c].value.  Row and column indices are Fin 3, so
the final catch-all arm of the match is unreachable (the spec declares
out-of-range input a caller contract violation, out of scope). -/
def boardGet (b : Board) (r c : Fin 3) : CellValue :=
  match r.val, c.val with
  | 0, 0 => b.c00
  | 0, 1 => b.c01
  | 0, 2 => b.c02
  | 1, 0 => b.c10
  | 1, 1 => b.c11
  | 1, 2 => b.c12
  | 2, 0 => b.c20
  | 2, 1 => b.c21
  | 2, 2 => b.c22
  | _, _ => CellValue.E

/-- Write this.board[r][c].value = v.  Same indexing convention as
boardGet; the catch-all arm is unreachable for Fin 3 indices. -/
def boardSet (b : Board) (r c : Fin 3) (v : CellValue) : Board :=
  match r.val, c.val with
  | 0, 0 => { b with c00 := v }
  | 0, 1 => { b with c01 := v }
  | 0, 2 => { b with c02 := v }
  | 1, 0 => { b with c10 := v }
  | 1, 1 => { b with c11 := v }
  | 1, 2 => { b with c12 := v }
  | 2, 0 => { b with c20 := v }
  | 2, 1 => { b with c21 := v }
  | 2, 2 => { b with c22 := v }
  | _, _ => b

/-- State of the GamePage component: board, the two Player counters,
the active-player tag, winner ('' | 'X' | 'O', E meaning ''), the UI
message, and the optional selected cell. -/
structure GameState where
  board : Board
  xCount : Nat
  oCount : Nat
  current : PlayerSym
  winner : CellValue
  message : String
  selected : Option (Fin 3 × Fin 3)
deriving DecidableEq, Repr

/-- Cell value written when the given player places a piece. -/
def symToCell : PlayerSym → CellValue
  | PlayerSym.X => CellValue.X
  | PlayerSym.O => CellValue.O

/-- The other player's tag. -/
def otherSym : PlayerSym → PlayerSym
  | PlayerSym.X => PlayerSym.O
  | PlayerSym.O => PlayerSym.X

/-- Placed-piece counter of the given Player record. -/
def countOf (st : GameState) : PlayerSym → Nat
  | PlayerSym.X => st.xCount
  | PlayerSym.O => st.oCount

/-- this.currentPlayer.count. -/
def currentCount (st : GameState) : Nat :=
  countOf st st.current

/-- this.currentPlayer.count++ (the active player's record is mutated). -/
def incCount (st : GameState) : GameState :=
  match st.current with
  | PlayerSym.X => { st with xCount := st.xCount + 1 }
  | PlayerSym.O => { st with oCount := st.oCount + 1 }

/-- Method switchPlayer: this.currentPlayer.symbol === 'X' picks the O
record, otherwise the X record. -/
def switchPlayer (st : GameState) : GameState :=
  { st with current := otherSym st.current }

/-- String form of a winner value, as interpolated into the template
literal (the empty value prints as the empty string). -/
def cellStr : CellValue → String
  | CellValue.E => ""
  | CellValue.X => "X"
  | CellValue.O => "O"

/-- Message set on a win. -/
def winMessage (v : CellValue) : String :=
  "Player " ++ cellStr v ++ " wins!"

/-- Method getLines: the 8 triples of current board values, in source
order rows, then columns, then diagonals. -/
def getLines (b : Board) : List (CellValue × CellValue × CellValue) :=
  [ (b.c00, b.c01, b.c02),
    (b.c10, b.c11, b.c12),
    (b.c20, b.c21, b.c22),
    (b.c00, b.c10, b.c20),
    (b.c01, b.c11, b.c21),
    (b.c02, b.c12, b.c22),
    (b.c00, b.c11, b.c22),
    (b.c02, b.c11, b.c20) ]

/-- Winning test on one triple: line[0] !== '' && line[0] === line[1] &&
line[1] === line[2]. -/
def lineWins (l : CellValue × CellValue × CellValue) : Bool :=
  decide (l.1 ≠ CellValue.E ∧ l.1 = l.2.1 ∧ l.2.1 = l.2.2)

/-- Loop body of checkWinner over the list of lines: the first winning
triple sets winner and message and the method returns. -/
def checkWinnerAux (st : GameState) : List (CellValue × CellValue × CellValue) → GameState
  | [] => st
  | l :: ls =>
    if lineWins l then
      { st with winner := l.1, message := winMessage l.1 }
    else
      checkWinnerAux st ls

/-- Method checkWinner.  When no triple matches nothing is written (the
else-branch message assignment in the source is commented out). -/
def checkWinner (st : GameState) : GameState :=
  checkWinnerAux st (getLines st.board)

/-- Method handlePlace: return if the cell is occupied; if the active
player's count is below 3, place the symbol, increment the count, check
for a winner, and switch players when no winner is set. -/
def handlePlace (st : GameState) (rowIndex colIndex : Fin 3) : GameState :=
  if boardGet st.board rowIndex colIndex ≠ CellValue.E then
    st
  else
    if currentCount st < 3 then
      let st1 := { st with board := boardSet st.board rowIndex colIndex (symToCell st.current) }
      let st2 := incCount st1
      let st3 := checkWinner st2
      if st3.winner = CellValue.E then switchPlayer st3 else st3
    else
      st

/-- Method handleMove.  sel is the dereferenced this.selectedCell!
(row, col); clicking another of the active player's pieces re-selects,
clicking an empty cell moves the selected piece there. -/
def handleMove (st : GameState) (sel : Fin 3 × Fin 3) (rowIndex colIndex : Fin 3) : GameState :=
  if boardGet st.board rowIndex colIndex = symToCell st.current ∧
      (rowIndex ≠ sel.1 ∨ colIndex ≠ sel.2) then
    { st with selected := some (rowIndex, colIndex) }
  else if boardGet st.board rowIndex colIndex = CellValue.E then
    let b1 := boardSet st.board rowIndex colIndex (boardGet st.board sel.1 sel.2)
    let b2 := boardSet b1 sel.1 sel.2 CellValue.E
    let st1 := { st with board := b2, selected := none }
    let st2 := checkWinner st1
    if st2.winner = CellValue.E then switchPlayer st2 else st2
  else
    st

/-- Method onSelectPiece: record the coordinates when the clicked cell
holds the active player's symbol, otherwise do nothing. -/
def onSelectPiece (st : GameState) (rowIndex colIndex : Fin 3) : GameState :=
  if boardGet st.board rowIndex colIndex = symToCell st.current then
    { st with selected := some (rowIndex, colIndex) }
  else
    st

/-- Method onCellClick, the input dispatcher: ignore clicks after a win,
else delegate to handleMove when a cell is selected, to onSelectPiece
when the active player already has 3 pieces, and to handlePlace
otherwise. -/
def onCellClick (st : GameState) (rowIndex colIndex : Fin 3) : GameState :=
  if st.winner ≠ CellValue.E then
    st
  else
    match st.selected with
    | some sel => handleMove st sel rowIndex colIndex
    | none =>
      if 3 ≤ currentCount st then
        onSelectPiece st rowIndex colIndex
      else
        handlePlace st rowIndex colIndex

/-- Board of nine empty cells, as built by the field initializer and by
resetGame. -/
def emptyBoard : Board :=
  { c00 := CellValue.E, c01 := CellValue.E, c02 := CellValue.E,
    c10 := CellValue.E, c11 := CellValue.E, c12 := CellValue.E,
    c20 := CellValue.E, c21 := CellValue.E, c22 := CellValue.E }

/-- State after the field initializers of GamePage run: empty board,
both counts 0, X active, no winner, empty message, nothing selected. -/
def initState : GameState :=
  { board := emptyBoard, xCount := 0, oCount := 0, current := PlayerSym.X,
    winner := CellValue.E, message := "", selected := none }

/-- Method resetGame: rebuild an empty board, zero both counts, make X
active, clear winner, message and selection. -/
def resetGame (_ : GameState) : GameState :=
  { board := emptyBoard, xCount := 0, oCount := 0, current := PlayerSym.X,
    winner := CellValue.E, message := "", selected := none }

/-- Indicator: 1 when the cell holds value v. -/
def cellInd (x v : CellValue) : Nat :=
  if x = v then 1 else 0

/-- Number of board cells holding value v. -/
def countVal (b : Board) (v : CellValue) : Nat :=
  cellInd b.c00 v + cellInd b.c01 v + cellInd b.c02 v +
  cellInd b.c10 v + cellInd b.c11 v + cellInd b.c12 v +
  cellInd b.c20 v + cellInd b.c21 v + cellInd b.c22 v

/-- Indicator: 1 when the cell is occupied (non-empty). -/
def occInd (x : CellValue) : Nat :=
  if x = CellValue.E then 0 else 1

/-- Number of occupied board cells. -/
def occupiedCount (b : Board) : Nat :=
  occInd b.c00 + occInd b.c01 + occInd b.c02 +
  occInd b.c10 + occInd b.c11 + occInd b.c12 +
  occInd b.c20 + occInd b.c21 + occInd b.c22

/-- States reachable from the initial state through the two public
entry points onCellClick and resetGame. -/
inductive Reachable : GameState → Prop
  | init : Reachable initState
  | click (st : GameState) (r c : Fin 3) : Reachable st → Reachable (onCellClick st r c)
  | reset (st : GameState) : Reachable st → Reachable (resetGame st)

/-- Common tail of handlePlace and handleMove: run checkWinner, then
switch players when no winner is set. -/
def afterCheck (st : GameState) : GameState :=
  if (checkWinner st).winner = CellValue.E then
    switchPlayer (checkWinner st)
  else
    checkWinner st

/-- Sample reachable state: X places (0,0), O (1,0), X (0,1), O (1,1),
X (1,2), O (2,0) (no line yet, both counts 3), then X clicks (0,0),
selecting that piece. -/
def selState : GameState :=
  onCellClick (onCellClick (onCellClick (onCellClick (onCellClick (onCellClick
    (onCellClick initState 0 0) 1 0) 0 1) 1 1) 1 2) 2 0) 0 0

/-- Sample terminal state: X has just completed the top row. -/
def wonState : GameState :=
  { board := { c00 := CellValue.X, c01 := CellValue.X, c02 := CellValue.X,
               c10 := CellValue.O, c11 := CellValue.O, c12 := CellValue.E,
               c20 := CellValue.E, c21 := CellValue.E, c22 := CellValue.E },
    xCount := 3, oCount := 2, current := PlayerSym.X,
    winner := CellValue.X, message := winMessage CellValue.X, selected := none }

/-- Sample full-placement board with no three-in-a-row. -/
def midBoard : Board :=
  { c00 := CellValue.X, c01 := CellValue.X, c02 := CellValue.O,
    c10 := CellValue.O, c11 := CellValue.O, c12 := CellValue.X,
    c20 := CellValue.E, c21 := CellValue.E, c22 := CellValue.E }

/-- Sample movement-phase state: both players placed 3 pieces, X has
selected the piece at (0,0). -/
def moveState : GameState :=
  { board := midBoard, xCount := 3, oCount := 3, current := PlayerSym.X,
    winner := CellValue.E, message := "", selected := some (0, 0) }

/-- Reading back the cell just written returns the written value. -/
theorem boardGet_boardSet_self (b : Board) (r c : Fin 3) (v : CellValue) :
    boardGet (boardSet b r c v) r c = v := by
  fin_cases r <;> fin_cases c <;> rfl

/-- Writing one cell does not change any other cell. -/
theorem boardGet_boardSet_ne (b : Board) (r c r' c' : Fin 3) (v : CellValue)
    (h : r ≠ r' ∨ c ≠ c') :
    boardGet (boardSet b r' c' v) r c = boardGet b r c := by
  fin_cases r <;> fin_cases c <;> fin_cases r' <;> fin_cases c' <;>
    first
    | rfl
    | simp_all

/-- Effect of one write on the count of cells holding value w, stated
additively to stay in Nat. -/
theorem countVal_boardSet (b : Board) (r c : Fin 3) (v w : CellValue) :
    countVal (boardSet b r c v) w + cellInd (boardGet b r c) w
      = countVal b w + cellInd v w := by
  fin_cases r <;> fin_cases c <;>
    simp only [countVal, boardSet, boardGet] <;> omega

/-- Effect of one write on the number of occupied cells, stated
additively to stay in Nat. -/
theorem occupiedCount_boardSet (b : Board) (r c : Fin 3) (v : CellValue) :
    occupiedCount (boardSet b r c v) + occInd (boardGet b r c)
      = occupiedCount b + occInd v := by
  fin_cases r <;> fin_cases c <;>
    simp only [occupiedCount, boardSet, boardGet] <;> omega

/-- A placed symbol is never the empty value. -/
theorem symToCell_ne_E (p : PlayerSym) : symToCell p ≠ CellValue.E := by
  cases p <;> simp [symToCell]

/-- The checkWinner loop returns the update for the first winning line
found by a left-to-right scan, and the unchanged state when none wins. -/
theorem checkWinnerAux_eq_find (st : GameState)
    (ls : List (CellValue × CellValue × CellValue)) :
    checkWinnerAux st ls =
      match ls.find? lineWins with
      | some l => { st with winner := l.1, message := winMessage l.1 }
      | none => st := by
  induction ls with
  | nil => rfl
  | cons l ls ih =>
    by_cases h : lineWins l = true
    · simp [checkWinnerAux, h, List.find?_cons_of_pos]
    · simp [checkWinnerAux, h, List.find?_cons_of_neg, ih]

/-- checkWinner writes only the winner and message fields. -/
theorem checkWinner_preserves (st : GameState) :
    (checkWinner st).board = st.board ∧ (checkWinner st).xCount = st.xCount ∧
    (checkWinner st).oCount = st.oCount ∧ (checkWinner st).current = st.current ∧
    (checkWinner st).selected = st.selected := by
  unfold checkWinner
  rw [checkWinnerAux_eq_find]
  cases (getLines st.board).find? lineWins <;> simp

/-- C1: checkWinner enumerates exactly 8 triples of current board values
in the order 3 rows, then 3 columns, then 2 diagonals; a triple wins iff
all three values are equal and non-empty; the first matching triple in
that scan order sets winner to that symbol and the message to the
"Player X/O wins!" string and detection stops; when no triple matches
the state (in particular winner and message) is unchanged. -/
theorem checkWinner_scans_lines_first_match (st : GameState) :
    getLines st.board =
      [ (boardGet st.board 0 0, boardGet st.board 0 1, boardGet st.board 0 2),
        (boardGet st.board 1 0, boardGet st.board 1 1, boardGet st.board 1 2),
        (boardGet st.board 2 0, boardGet st.board 2 1, boardGet st.board 2 2),
        (boardGet st.board 0 0, boardGet st.board 1 0, boardGet st.board 2 0),
        (boardGet st.board 0 1, boardGet st.board 1 1, boardGet st.board 2 1),
        (boardGet st.board 0 2, boardGet st.board 1 2, boardGet st.board 2 2),
        (boardGet st.board 0 0, boardGet st.board 1 1, boardGet st.board 2 2),
        (boardGet st.board 0 2, boardGet st.board 1 1, boardGet st.board 2 0) ] ∧
    (∀ l, lineWins l = true ↔ l.1 ≠ CellValue.E ∧ l.1 = l.2.1 ∧ l.2.1 = l.2.2) ∧
    winMessage CellValue.X = "Player X wins!" ∧
    winMessage CellValue.O = "Player O wins!" ∧
    checkWinner st =
      (match (getLines st.board).find? lineWins with
       | some l => { st with winner := l.1, message := winMessage l.1 }
       | none => st) := by
  refine ⟨rfl, ?_, rfl, rfl, checkWinnerAux_eq_find st (getLines st.board)⟩
  intro l
  obtain ⟨x, y, z⟩ := l
  cases x <;> cases y <;> cases z <;> decide

/-- C4: once a winner is set, onCellClick is a strict no-op: the whole
state (board, counts, active player, winner, message, selection) is
returned unchanged. -/
theorem onCellClick_after_win_noop (st : GameState) (r c : Fin 3)
    (h : st.winner ≠ CellValue.E) :
    onCellClick st r c = st := by
  simp [onCellClick, h]

/-- Witness for C4 at a concrete terminal state. -/
theorem onCellClick_after_win_noop_witness :
    wonState.winner ≠ CellValue.E ∧ onCellClick wonState 1 2 = wonState :=
  ⟨by decide, onCellClick_after_win_noop wonState 1 2 (by decide)⟩

/-- C9: resetGame, from any state, restores the exact initial state:
all nine cells empty, both counts 0, X active, winner, message and
selection cleared. -/
theorem resetGame_restores_initial (st : GameState) :
    resetGame st = initState ∧
    (∀ r c, boardGet (resetGame st).board r c = CellValue.E) ∧
    (resetGame st).xCount = 0 ∧ (resetGame st).oCount = 0 ∧
    (resetGame st).current = PlayerSym.X ∧
    (resetGame st).winner = CellValue.E ∧
    (resetGame st).message = "" ∧ (resetGame st).selected = none := by
  refine ⟨rfl, ?_, rfl, rfl, rfl, rfl, rfl, rfl⟩
  intro r c
  fin_cases r <;> fin_cases c <;> rfl

/-- Incrementing the active player's counter changes no other field. -/
theorem incCount_fields (st : GameState) :
    (incCount st).board = st.board ∧ (incCount st).current = st.current ∧
    (incCount st).winner = st.winner ∧ (incCount st).message = st.message ∧
    (incCount st).selected = st.selected := by
  cases h : st.current <;> simp [incCount, h]

/-- Incrementing the active player's counter adds one to that player's
count. -/
theorem countOf_incCount_current (st : GameState) :
    countOf (incCount st) st.current = countOf st st.current + 1 := by
  cases h : st.current <;> simp [incCount, h, countOf]

/-- Incrementing the active player's counter leaves the other player's
count unchanged. -/
theorem countOf_incCount_other (st : GameState) :
    countOf (incCount st) (otherSym st.current) = countOf st (otherSym st.current) := by
  cases h : st.current <;> simp [incCount, h, countOf, otherSym]

/-- Switching players leaves both counters unchanged. -/
theorem countOf_switchPlayer (st : GameState) (p : PlayerSym) :
    countOf (switchPlayer st) p = countOf st p := by
  cases p <;> rfl

/-- Replacing the board leaves both counters unchanged. -/
theorem countOf_setBoard (st : GameState) (b : Board) (p : PlayerSym) :
    countOf { st with board := b } p = countOf st p := by
  cases p <;> rfl

/-- Counters are unchanged by checkWinner. -/
theorem countOf_checkWinner (st : GameState) (p : PlayerSym) :
    countOf (checkWinner st) p = countOf st p := by
  obtain ⟨-, hx, ho, -, -⟩ := checkWinner_preserves st
  cases p <;> simp [countOf, hx, ho]

/-- C2: with no winner, no selection, the active player's count below 3
and the target cell empty, onCellClick places the active player's symbol
at the target, increments exactly that player's count, runs the win
detector on the resulting state, and switches the active player when no
winner resulted. -/
theorem onCellClick_place_spec (st : GameState) (r c : Fin 3)
    (hw : st.winner = CellValue.E) (hs : st.selected = none)
    (hcnt : currentCount st < 3) (hemp : boardGet st.board r c = CellValue.E) :
    boardGet (onCellClick st r c).board r c = symToCell st.current ∧
    countOf (onCellClick st r c) st.current = countOf st st.current + 1 ∧
    countOf (onCellClick st r c) (otherSym st.current) = countOf st (otherSym st.current) ∧
    (onCellClick st r c).winner =
      (checkWinner (incCount { st with board := boardSet st.board r c (symToCell st.current) })).winner ∧
    ((onCellClick st r c).winner = CellValue.E →
      (onCellClick st r c).current = otherSym st.current) := by
  have hroute : onCellClick st r c =
      (if (checkWinner (incCount { st with board := boardSet st.board r c (symToCell st.current) })).winner = CellValue.E
       then switchPlayer (checkWinner (incCount { st with board := boardSet st.board r c (symToCell st.current) }))
       else checkWinner (incCount { st with board := boardSet st.board r c (symToCell st.current) })) := by
    simp [onCellClick, handlePlace, hw, hs, hemp, hcnt, Nat.not_le.mpr hcnt]
  rw [hroute]
  obtain ⟨hib, hic, -, -, -⟩ :=
    incCount_fields { st with board := boardSet st.board r c (symToCell st.current) }
  obtain ⟨hcb, -, -, hcc, -⟩ :=
    checkWinner_preserves (incCount { st with board := boardSet st.board r c (symToCell st.current) })
  by_cases hwin : (checkWinner (incCount { st with board := boardSet st.board r c (symToCell st.current) })).winner = CellValue.E
  · rw [if_pos hwin]
    refine ⟨?_, ?_, ?_, ?_, fun _ => ?_⟩
    · show boardGet (checkWinner _).board r c = _
      rw [hcb, hib]
      exact boardGet_boardSet_self st.board r c (symToCell st.current)
    · rw [countOf_switchPlayer, countOf_checkWinner]
      exact countOf_incCount_current { st with board := boardSet st.board r c (symToCell st.current) }
    · rw [countOf_switchPlayer, countOf_checkWinner]
      exact countOf_incCount_other { st with board := boardSet st.board r c (symToCell st.current) }
    · rfl
    · show otherSym (checkWinner _).current = _
      rw [hcc, hic]
  · rw [if_neg hwin]
    refine ⟨?_, ?_, ?_, rfl, fun h => absurd h hwin⟩
    · rw [hcb, hib]
      exact boardGet_boardSet_self st.board r c (symToCell st.current)
    · rw [countOf_checkWinner]
      exact countOf_incCount_current { st with board := boardSet st.board r c (symToCell st.current) }
    · rw [countOf_checkWinner]
      exact countOf_incCount_other { st with board := boardSet st.board r c (symToCell st.current) }

/-- Witness for C2: X places at (0,0) from the initial state. -/
theorem onCellClick_place_spec_witness :
    initState.winner = CellValue.E ∧ initState.selected = none ∧
    currentCount initState < 3 ∧ boardGet initState.board 0 0 = CellValue.E ∧
    (boardGet (onCellClick initState 0 0).board 0 0 = symToCell initState.current ∧
     countOf (onCellClick initState 0 0) initState.current = countOf initState initState.current + 1 ∧
     countOf (onCellClick initState 0 0) (otherSym initState.current) = countOf initState (otherSym initState.current) ∧
     (onCellClick initState 0 0).winner =
       (checkWinner (incCount { initState with board := boardSet initState.board 0 0 (symToCell initState.current) })).winner ∧
     ((onCellClick initState 0 0).winner = CellValue.E →
       (onCellClick initState 0 0).current = otherSym initState.current)) :=
  ⟨by decide, by decide, by decide, by decide,
   onCellClick_place_spec initState 0 0 (by decide) (by decide) (by decide) (by decide)⟩

/-- C3: with no winner, a selected cell S holding the active player's
symbol, and an empty target cell, onCellClick copies the active player's
symbol into the target, empties S, clears the selection, leaves both
counts and the number of occupied cells unchanged, runs the win detector
on the moved state, and switches the active player when no winner
resulted. -/
theorem onCellClick_move_spec (st : GameState) (sr sc r c : Fin 3)
    (hw : st.winner = CellValue.E) (hs : st.selected = some (sr, sc))
    (hsel : boardGet st.board sr sc = symToCell st.current)
    (hemp : boardGet st.board r c = CellValue.E) :
    boardGet (onCellClick st r c).board r c = symToCell st.current ∧
    boardGet (onCellClick st r c).board sr sc = CellValue.E ∧
    (onCellClick st r c).selected = none ∧
    (onCellClick st r c).xCount = st.xCount ∧
    (onCellClick st r c).oCount = st.oCount ∧
    occupiedCount (onCellClick st r c).board = occupiedCount st.board ∧
    (onCellClick st r c).winner =
      (checkWinner { st with
        board := boardSet (boardSet st.board r c (symToCell st.current)) sr sc CellValue.E,
        selected := none }).winner ∧
    ((onCellClick st r c).winner = CellValue.E →
      (onCellClick st r c).current = otherSym st.current) := by
  have hne2 : r ≠ sr ∨ c ≠ sc := by
    by_contra h
    push_neg at h
    obtain ⟨h1, h2⟩ := h
    rw [h1, h2, hsel] at hemp
    exact symToCell_ne_E st.current hemp
  have hroute : onCellClick st r c =
      (if (checkWinner { st with
            board := boardSet (boardSet st.board r c (symToCell st.current)) sr sc CellValue.E,
            selected := none }).winner = CellValue.E
       then switchPlayer (checkWinner { st with
            board := boardSet (boardSet st.board r c (symToCell st.current)) sr sc CellValue.E,
            selected := none })
       else checkWinner { st with
            board := boardSet (boardSet st.board r c (symToCell st.current)) sr sc CellValue.E,
            selected := none }) := by
    simp [onCellClick, handleMove, hw, hs, hemp, hsel, Ne.symm (symToCell_ne_E st.current)]
  have hget1 : boardGet (boardSet (boardSet st.board r c (symToCell st.current)) sr sc CellValue.E) r c
      = symToCell st.current := by
    rw [boardGet_boardSet_ne _ _ _ _ _ _ hne2, boardGet_boardSet_self]
  have hget2 : boardGet (boardSet (boardSet st.board r c (symToCell st.current)) sr sc CellValue.E) sr sc
      = CellValue.E := boardGet_boardSet_self _ sr sc _
  have hocc : occupiedCount (boardSet (boardSet st.board r c (symToCell st.current)) sr sc CellValue.E)
      = occupiedCount st.board := by
    have o1 := occupiedCount_boardSet st.board r c (symToCell st.current)
    have o2 := occupiedCount_boardSet (boardSet st.board r c (symToCell st.current)) sr sc CellValue.E
    have hmid : boardGet (boardSet st.board r c (symToCell st.current)) sr sc
        = symToCell st.current := by
      rw [boardGet_boardSet_ne _ _ _ _ _ _ (hne2.imp Ne.symm Ne.symm), hsel]
    rw [hemp] at o1
    rw [hmid] at o2
    have hiE : occInd CellValue.E = 0 := rfl
    rw [hiE] at o1 o2
    omega
  rw [hroute]
  obtain ⟨hcb, hcx, hco, hcc, hcs⟩ :=
    checkWinner_preserves { st with
      board := boardSet (boardSet st.board r c (symToCell st.current)) sr sc CellValue.E,
      selected := none }
  by_cases hwin : (checkWinner { st with
      board := boardSet (boardSet st.board r c (symToCell st.current)) sr sc CellValue.E,
      selected := none }).winner = CellValue.E
  · rw [if_pos hwin]
    refine ⟨?_, ?_, ?_, ?_, ?_, ?_, rfl, fun _ => ?_⟩
    · show boardGet (checkWinner _).board r c = _
      rw [hcb]
      exact hget1
    · show boardGet (checkWinner _).board sr sc = _
      rw [hcb]
      exact hget2
    · show (checkWinner _).selected = _
      rw [hcs]
    · show (checkWinner _).xCount = _
      rw [hcx]
    · show (checkWinner _).oCount = _
      rw [hco]
    · show occupiedCount (checkWinner _).board = _
      rw [hcb]
      exact hocc
    · show otherSym (checkWinner _).current = _
      rw [hcc]
  · rw [if_neg hwin]
    refine ⟨?_, ?_, ?_, ?_, ?_, ?_, rfl, fun h => absurd h hwin⟩
    · rw [hcb]; exact hget1
    · rw [hcb]; exact hget2
    · rw [hcs]
    · rw [hcx]
    · rw [hco]
    · rw [hcb]; exact hocc

/-- Witness for C3: in the sample movement-phase state, X moves the
selected piece from (0,0) to the empty cell (2,0). -/
theorem onCellClick_move_spec_witness :
    moveState.winner = CellValue.E ∧ moveState.selected = some (0, 0) ∧
    boardGet moveState.board 0 0 = symToCell moveState.current ∧
    boardGet moveState.board 2 0 = CellValue.E ∧
    (boardGet (onCellClick moveState 2 0).board 2 0 = symToCell moveState.current ∧
     boardGet (onCellClick moveState 2 0).board 0 0 = CellValue.E ∧
     (onCellClick moveState 2 0).selected = none ∧
     (onCellClick moveState 2 0).xCount = moveState.xCount ∧
     (onCellClick moveState 2 0).oCount = moveState.oCount ∧
     occupiedCount (onCellClick moveState 2 0).board = occupiedCount moveState.board ∧
     (onCellClick moveState 2 0).winner =
       (checkWinner { moveState with
         board := boardSet (boardSet moveState.board 2 0 (symToCell moveState.current)) 0 0 CellValue.E,
         selected := none }).winner ∧
     ((onCellClick moveState 2 0).winner = CellValue.E →
       (onCellClick moveState 2 0).current = otherSym moveState.current)) :=
  ⟨by decide, by decide, by decide, by decide,
   onCellClick_move_spec moveState 0 0 2 0 (by decide) (by decide) (by decide) (by decide)⟩

/-- C5: the turn alternates strictly: whenever onCellClick changes the
board (a placement or a movement) and no winner results, the active
player switches to the other player; and whenever the winner field is
set after the call (already set before, or set by this call), the
active player is unchanged by the call. -/
theorem turn_alternation (st : GameState) (r c : Fin 3) :
    ((onCellClick st r c).board ≠ st.board →
      (onCellClick st r c).winner = CellValue.E →
      (onCellClick st r c).current = otherSym st.current) ∧
    ((onCellClick st r c).winner ≠ CellValue.E →
      (onCellClick st r c).current = st.current) := by
  by_cases hw : st.winner = CellValue.E
  · cases hsel : st.selected with
    | none =>
      by_cases hcnt : 3 ≤ currentCount st
      · have hform : onCellClick st r c = onSelectPiece st r c := by
          simp [onCellClick, hw, hsel, hcnt]
        rw [hform]
        unfold onSelectPiece
        by_cases hpick : boardGet st.board r c = symToCell st.current
        · rw [if_pos hpick]
          exact ⟨fun hb _ => absurd rfl hb, fun _ => rfl⟩
        · rw [if_neg hpick]
          exact ⟨fun hb _ => absurd rfl hb, fun _ => rfl⟩
      · by_cases hocc : boardGet st.board r c = CellValue.E
        · have hlt : currentCount st < 3 := Nat.lt_of_not_le hcnt
          have hform : onCellClick st r c =
              (if (checkWinner (incCount { st with
                    board := boardSet st.board r c (symToCell st.current) })).winner = CellValue.E
               then switchPlayer (checkWinner (incCount { st with
                    board := boardSet st.board r c (symToCell st.current) }))
               else checkWinner (incCount { st with
                    board := boardSet st.board r c (symToCell st.current) })) := by
            simp [onCellClick, handlePlace, hw, hsel, hcnt, hocc, hlt]
          have hWcur : (checkWinner (incCount { st with
              board := boardSet st.board r c (symToCell st.current) })).current = st.current := by
            rw [(checkWinner_preserves _).2.2.2.1,
              (incCount_fields { st with
                board := boardSet st.board r c (symToCell st.current) }).2.1]
          rw [hform]
          by_cases hwin : (checkWinner (incCount { st with
              board := boardSet st.board r c (symToCell st.current) })).winner = CellValue.E
          · rw [if_pos hwin]
            refine ⟨fun _ _ => ?_, fun hwin2 => absurd hwin hwin2⟩
            show otherSym (checkWinner _).current = otherSym st.current
            rw [hWcur]
          · rw [if_neg hwin]
            exact ⟨fun _ h => absurd h hwin, fun _ => hWcur⟩
        · have hform : onCellClick st r c = st := by
            simp [onCellClick, handlePlace, hw, hsel, hcnt, hocc]
          rw [hform]
          exact ⟨fun hb _ => absurd rfl hb, fun _ => rfl⟩
    | some sel =>
      have hform0 : onCellClick st r c = handleMove st sel r c := by
        simp [onCellClick, hw, hsel]
      rw [hform0]
      by_cases h1 : boardGet st.board r c = symToCell st.current ∧ (r ≠ sel.1 ∨ c ≠ sel.2)
      · have hform : handleMove st sel r c = { st with selected := some (r, c) } := by
          simp [handleMove, h1]
        rw [hform]
        exact ⟨fun hb _ => absurd rfl hb, fun _ => rfl⟩
      · by_cases h2 : boardGet st.board r c = CellValue.E
        · have hform : handleMove st sel r c =
              (if (checkWinner { st with
                    board := boardSet (boardSet st.board r c (boardGet st.board sel.1 sel.2))
                      sel.1 sel.2 CellValue.E,
                    selected := none }).winner = CellValue.E
               then switchPlayer (checkWinner { st with
                    board := boardSet (boardSet st.board r c (boardGet st.board sel.1 sel.2))
                      sel.1 sel.2 CellValue.E,
                    selected := none })
               else checkWinner { st with
                    board := boardSet (boardSet st.board r c (boardGet st.board sel.1 sel.2))
                      sel.1 sel.2 CellValue.E,
                    selected := none }) := by
            simp [handleMove, h2, Ne.symm (symToCell_ne_E st.current)]
          have hWcur : (checkWinner { st with
              board := boardSet (boardSet st.board r c (boardGet st.board sel.1 sel.2))
                sel.1 sel.2 CellValue.E,
              selected := none }).current = st.current :=
            (checkWinner_preserves _).2.2.2.1
          rw [hform]
          by_cases hwin : (checkWinner { st with
              board := boardSet (boardSet st.board r c (boardGet st.board sel.1 sel.2))
                sel.1 sel.2 CellValue.E,
              selected := none }).winner = CellValue.E
          · rw [if_pos hwin]
            refine ⟨fun _ _ => ?_, fun hwin2 => absurd hwin hwin2⟩
            show otherSym (checkWinner _).current = otherSym st.current
            rw [hWcur]
          · rw [if_neg hwin]
            exact ⟨fun _ h => absurd h hwin, fun _ => hWcur⟩
        · have hform : handleMove st sel r c = st := by
            simp [handleMove, h1, h2]
          rw [hform]
          exact ⟨fun hb _ => absurd rfl hb, fun _ => rfl⟩
  · have hform : onCellClick st r c = st := by
      simp [onCellClick, hw]
    rw [hform]
    exact ⟨fun hb _ => absurd rfl hb, fun _ => rfl⟩

/-- Witness for C5: X places at (0,0) from the initial state; the board
changed, no winner resulted, and the turn passed to O. -/
theorem turn_alternation_witness :
    (onCellClick initState 0 0).board ≠ initState.board ∧
    (onCellClick initState 0 0).winner = CellValue.E ∧
    (onCellClick initState 0 0).current = otherSym initState.current :=
  ⟨by decide, by decide, (turn_alternation initState 0 0).1 (by decide) (by decide)⟩

/-- The checkWinner-then-maybe-switch tail changes neither the board,
nor the counters, nor the selection. -/
theorem afterCheck_fields (st : GameState) :
    (afterCheck st).board = st.board ∧ (afterCheck st).xCount = st.xCount ∧
    (afterCheck st).oCount = st.oCount ∧ (afterCheck st).selected = st.selected := by
  unfold afterCheck
  obtain ⟨hb, hx, ho, -, hs⟩ := checkWinner_preserves st
  by_cases hw : (checkWinner st).winner = CellValue.E
  · rw [if_pos hw]
    exact ⟨hb, hx, ho, hs⟩
  · rw [if_neg hw]
    exact ⟨hb, hx, ho, hs⟩

/-- Case analysis of one dispatcher call: it is a no-op, a selection or
reselection of an own piece, a placement on an empty cell with count
below 3, or a movement of the selected piece to an empty cell. -/
theorem onCellClick_shape (st : GameState) (r c : Fin 3) :
    onCellClick st r c = st ∨
    (boardGet st.board r c = symToCell st.current ∧
      onCellClick st r c = { st with selected := some (r, c) }) ∨
    (st.selected = none ∧ currentCount st < 3 ∧ boardGet st.board r c = CellValue.E ∧
      onCellClick st r c =
        afterCheck (incCount { st with board := boardSet st.board r c (symToCell st.current) })) ∨
    (∃ sr sc, st.selected = some (sr, sc) ∧ boardGet st.board r c = CellValue.E ∧
      onCellClick st r c =
        afterCheck { st with
          board := boardSet (boardSet st.board r c (boardGet st.board sr sc)) sr sc CellValue.E,
          selected := none }) := by
  by_cases hw : st.winner = CellValue.E
  · cases hsel : st.selected with
    | none =>
      by_cases hcnt : 3 ≤ currentCount st
      · by_cases hpick : boardGet st.board r c = symToCell st.current
        · exact Or.inr (Or.inl ⟨hpick, by
            simp [onCellClick, hw, hsel, hcnt, onSelectPiece, hpick]⟩)
        · exact Or.inl (by simp [onCellClick, hw, hsel, hcnt, onSelectPiece, hpick])
      · by_cases hocc : boardGet st.board r c = CellValue.E
        · refine Or.inr (Or.inr (Or.inl ⟨rfl, Nat.lt_of_not_le hcnt, hocc, ?_⟩))
          simp [onCellClick, hw, hsel, hcnt, handlePlace, hocc, Nat.lt_of_not_le hcnt, afterCheck]
        · exact Or.inl (by simp [onCellClick, hw, hsel, hcnt, handlePlace, hocc])
    | some sel =>
      by_cases h1 : boardGet st.board r c = symToCell st.current ∧ (r ≠ sel.1 ∨ c ≠ sel.2)
      · exact Or.inr (Or.inl ⟨h1.1, by simp [onCellClick, hw, hsel, handleMove, h1]⟩)
      · by_cases h2 : boardGet st.board r c = CellValue.E
        · refine Or.inr (Or.inr (Or.inr ⟨sel.1, sel.2, rfl, h2, ?_⟩))
          simp [onCellClick, hw, hsel, handleMove, h2,
            Ne.symm (symToCell_ne_E st.current), afterCheck]
        · exact Or.inl (by simp [onCellClick, hw, hsel, handleMove, h1, h2])
  · exact Or.inl (by simp [onCellClick, hw])

/-- C6: every illegal or currently-invalid input is a silent no-op that
returns the state unchanged (and, the functions being total, no
exception-style failure exists): a placement click on an occupied cell
(and handlePlace itself regardless of the count), a selection click on
a cell not holding the active player's symbol, a movement click on an
occupied target or on the selected cell itself, and any click after a
win. -/
theorem invalid_input_noop (st : GameState) (r c : Fin 3) :
    (boardGet st.board r c ≠ CellValue.E → handlePlace st r c = st) ∧
    (st.winner = CellValue.E → st.selected = none → currentCount st < 3 →
      boardGet st.board r c ≠ CellValue.E → onCellClick st r c = st) ∧
    (st.winner = CellValue.E → st.selected = none → 3 ≤ currentCount st →
      boardGet st.board r c ≠ symToCell st.current → onCellClick st r c = st) ∧
    (∀ sr sc, st.winner = CellValue.E → st.selected = some (sr, sc) →
      boardGet st.board r c ≠ CellValue.E →
      (boardGet st.board r c ≠ symToCell st.current ∨ (r = sr ∧ c = sc)) →
      onCellClick st r c = st) ∧
    (st.winner ≠ CellValue.E → onCellClick st r c = st) := by
  refine ⟨?_, ?_, ?_, ?_, ?_⟩
  · intro h
    simp [handlePlace, h]
  · intro hw hs hcnt hocc
    simp [onCellClick, hw, hs, Nat.not_le.mpr hcnt, handlePlace, hocc]
  · intro hw hs hcnt hpick
    simp [onCellClick, hw, hs, hcnt, onSelectPiece, hpick]
  · intro sr sc hw hs hocc hcase
    have hc1 : ¬(boardGet st.board r c = symToCell st.current ∧ (r ≠ sr ∨ c ≠ sc)) := by
      rcases hcase with h | ⟨h1, h2⟩
      · exact fun hc => h hc.1
      · subst h1
        subst h2
        rintro ⟨-, h | h⟩ <;> exact h rfl
    simp [onCellClick, hw, hs, handleMove, hc1, hocc]
  · intro h
    simp [onCellClick, h]

/-- Witness for C6: in the sample movement-phase state, placing on the
occupied cell (1,0) is rejected, and clicking the opponent's piece at
(1,0) while (0,0) is selected changes nothing. -/
theorem invalid_input_noop_witness :
    boardGet moveState.board 1 0 ≠ CellValue.E ∧
    handlePlace moveState 1 0 = moveState ∧
    moveState.winner = CellValue.E ∧ moveState.selected = some (0, 0) ∧
    boardGet moveState.board 1 0 ≠ symToCell moveState.current ∧
    onCellClick moveState 1 0 = moveState :=
  ⟨by decide, (invalid_input_noop moveState 1 0).1 (by decide), by decide, by decide, by decide,
   (invalid_input_noop moveState 1 0).2.2.2.1 0 0 (by decide) (by decide) (by decide)
     (Or.inl (by decide))⟩

/-- C7: in every reachable state each player's placed-count is at most 3
and their sum is at most 6; moreover handlePlace itself re-validates the
bound: with the active player's count at 3 or more it returns the state
unchanged even on an empty target. -/
theorem counts_bounded_invariant (st : GameState) :
    (Reachable st → st.xCount ≤ 3 ∧ st.oCount ≤ 3 ∧ st.xCount + st.oCount ≤ 6) ∧
    (∀ r c, 3 ≤ currentCount st → handlePlace st r c = st) := by
  constructor
  · intro h
    have key : st.xCount ≤ 3 ∧ st.oCount ≤ 3 := by
      induction h with
      | init => exact ⟨by decide, by decide⟩
      | click st r c hst ih =>
        rcases onCellClick_shape st r c with h0 | ⟨-, h0⟩ | ⟨-, hcnt, -, h0⟩ | ⟨sr, sc, -, -, h0⟩
        · rw [h0]; exact ih
        · rw [h0]; exact ih
        · rw [h0]
          obtain ⟨-, hx, ho, -⟩ := afterCheck_fields
            (incCount { st with board := boardSet st.board r c (symToCell st.current) })
          rw [hx, ho]
          cases hc : st.current with
          | X =>
            have hcnt' : st.xCount < 3 := by
              simpa [currentCount, countOf, hc] using hcnt
            simp only [incCount, hc]
            exact ⟨by omega, ih.2⟩
          | O =>
            have hcnt' : st.oCount < 3 := by
              simpa [currentCount, countOf, hc] using hcnt
            simp only [incCount, hc]
            exact ⟨ih.1, by omega⟩
        · rw [h0]
          obtain ⟨-, hx, ho, -⟩ := afterCheck_fields { st with
            board := boardSet (boardSet st.board r c (boardGet st.board sr sc)) sr sc CellValue.E,
            selected := none }
          rw [hx, ho]
          exact ih
      | reset st hst ih => exact ⟨Nat.zero_le 3, Nat.zero_le 3⟩
    exact ⟨key.1, key.2, by omega⟩
  · intro r c hcnt
    simp [handlePlace, Nat.not_lt.mpr hcnt]

/-- Witness for C7 at the sample reachable state with both counts 3:
the bounds hold and a placement attempt at the empty cell (2,2) is
rejected by the count re-validation. -/
theorem counts_bounded_invariant_witness :
    (selState.xCount ≤ 3 ∧ selState.oCount ≤ 3 ∧ selState.xCount + selState.oCount ≤ 6) ∧
    (3 ≤ currentCount selState ∧ handlePlace selState 2 2 = selState) :=
  ⟨(counts_bounded_invariant selState).1
    (Reachable.click _ 0 0 (Reachable.click _ 2 0 (Reachable.click _ 1 2 (Reachable.click _ 1 1
      (Reachable.click _ 0 1 (Reachable.click _ 1 0 (Reachable.click _ 0 0 Reachable.init))))))),
   by decide, (counts_bounded_invariant selState).2 2 2 (by decide)⟩

/-- C8: in every reachable state, when a cell is selected the board cell
it references holds the active player's symbol; every operation
preserves this. -/
theorem selected_cell_invariant (st : GameState) (h : Reachable st) :
    ∀ sr sc, st.selected = some (sr, sc) →
      boardGet st.board sr sc = symToCell st.current := by
  induction h with
  | init =>
    intro sr sc hq
    exact Option.noConfusion hq
  | click st r c hst ih =>
    rcases onCellClick_shape st r c with h0 | ⟨hsym, h0⟩ | ⟨hnone, -, -, h0⟩ | ⟨a, b, -, -, h0⟩
    · rw [h0]; exact ih
    · rw [h0]
      intro sr sc hq
      have hp : (r, c) = (sr, sc) := by simpa using hq
      obtain ⟨h1, h2⟩ := Prod.mk.injEq .. ▸ hp
      · subst h1
        subst h2
        exact hsym
    · have hselnone : (onCellClick st r c).selected = none := by
        rw [h0, (afterCheck_fields _).2.2.2,
          (incCount_fields { st with
            board := boardSet st.board r c (symToCell st.current) }).2.2.2.2]
        simpa using hnone
      intro sr sc hq
      rw [hselnone] at hq
      exact Option.noConfusion hq
    · have hselnone : (onCellClick st r c).selected = none := by
        rw [h0, (afterCheck_fields _).2.2.2]
      intro sr sc hq
      rw [hselnone] at hq
      exact Option.noConfusion hq
  | reset st hst ih =>
    intro sr sc hq
    exact Option.noConfusion hq

/-- Witness for C8: in the sample reachable state X has selected (0,0)
and that cell indeed holds the X symbol. -/
theorem selected_cell_invariant_witness :
    selState.selected = some (0, 0) ∧
    boardGet selState.board 0 0 = symToCell selState.current :=
  ⟨by decide,
   selected_cell_invariant selState
     (Reachable.click _ 0 0 (Reachable.click _ 2 0 (Reachable.click _ 1 2 (Reachable.click _ 1 1
       (Reachable.click _ 0 1 (Reachable.click _ 1 0 (Reachable.click _ 0 0 Reachable.init)))))))
     0 0 (by decide)⟩

/-- C10: in every reachable state the number of board cells holding 'X'
equals the X player's placed-count and the number holding 'O' equals the
O player's placed-count. -/
theorem board_counts_match_placed_counts (st : GameState) (h : Reachable st) :
    countVal st.board CellValue.X = st.xCount ∧
    countVal st.board CellValue.O = st.oCount := by
  induction h with
  | init => exact ⟨rfl, rfl⟩
  | click st r c hst ih =>
    rcases onCellClick_shape st r c with h0 | ⟨-, h0⟩ | ⟨-, -, hocc, h0⟩ | ⟨sr, sc, -, hocc, h0⟩
    · rw [h0]; exact ih
    · rw [h0]; exact ih
    · rw [h0]
      obtain ⟨hb, hx, ho, -⟩ := afterCheck_fields
        (incCount { st with board := boardSet st.board r c (symToCell st.current) })
      rw [hb, hx, ho]
      obtain ⟨ih1, ih2⟩ := ih
      cases hc : st.current with
      | X =>
        have e1 := countVal_boardSet st.board r c CellValue.X CellValue.X
        have e2 := countVal_boardSet st.board r c CellValue.X CellValue.O
        rw [hocc] at e1 e2
        simp only [cellInd] at e1 e2
        simp at e1 e2
        simp [symToCell, incCount]
        constructor <;> omega
      | O =>
        have e1 := countVal_boardSet st.board r c CellValue.O CellValue.X
        have e2 := countVal_boardSet st.board r c CellValue.O CellValue.O
        rw [hocc] at e1 e2
        simp only [cellInd] at e1 e2
        simp at e1 e2
        simp [symToCell, incCount]
        constructor <;> omega
    · rw [h0]
      obtain ⟨hb, hx, ho, -⟩ := afterCheck_fields { st with
        board := boardSet (boardSet st.board r c (boardGet st.board sr sc)) sr sc CellValue.E,
        selected := none }
      rw [hb, hx, ho]
      have key : ∀ w, countVal
          (boardSet (boardSet st.board r c (boardGet st.board sr sc)) sr sc CellValue.E) w
          = countVal st.board w := by
        intro w
        have e1 := countVal_boardSet st.board r c (boardGet st.board sr sc) w
        have e2 := countVal_boardSet
          (boardSet st.board r c (boardGet st.board sr sc)) sr sc CellValue.E w
        have hmid : boardGet (boardSet st.board r c (boardGet st.board sr sc)) sr sc
            = boardGet st.board sr sc := by
          by_cases hpos : sr = r ∧ sc = c
          · obtain ⟨h1, h2⟩ := hpos
            subst h1
            subst h2
            exact boardGet_boardSet_self st.board sr sc (boardGet st.board sr sc)
          · exact boardGet_boardSet_ne st.board sr sc r c (boardGet st.board sr sc)
              (not_and_or.mp hpos)
        rw [hocc] at e1
        rw [hmid] at e2
        have hiE : cellInd CellValue.E w + 0 = cellInd CellValue.E w := rfl
        omega
      rw [key, key]
      exact ih
  | reset st hst ih => exact ⟨rfl, rfl⟩

/-- Witness for C10 at the sample reachable state: three X cells and
three O cells on the board, matching counts 3 and 3. -/
theorem board_counts_match_placed_counts_witness :
    countVal selState.board CellValue.X = selState.xCount ∧
    countVal selState.board CellValue.O = selState.oCount :=
  board_counts_match_placed_counts selState
    (Reachable.click _ 0 0 (Reachable.click _ 2 0 (Reachable.click _ 1 2 (Reachable.click _ 1 1
      (Reachable.click _ 0 1 (Reachable.click _ 1 0 (Reachable.click _ 0 0 Reachable.init)))))))
